import Mathlib

/-
  Shallow embedding of the connection-pool manager of this repository
  (src/connection_manager.py and src/utils.py).

  Python dicts are modelled as insertion-ordered association lists
  (Dict α below); time values are modelled as integers; the opaque mem0
  client handles produced by the factory are modelled as natural-number
  tokens allocated from a counter.  Whether a teardown close step raises
  is an external fact, modelled by the Env record.  The manager's
  non-reentrant threading.Lock is modelled where it matters: attempting
  to take the lock while the same call already holds it blocks forever,
  represented by the Res.deadlock outcome (a block is not a Python
  exception, so no except-clause catches it).
-/

namespace OwnMem0

/-- Insertion-ordered association list modelling a Python dict. -/
abbrev Dict (α : Type) := List (String × α)

/-- Python dict read: first (and, in reachable states, only) binding wins. -/
def dlookup {α : Type} : Dict α → String → Option α
  | [], _ => none
  | (k', v) :: rest, k => if k' = k then some v else dlookup rest k

/-- Python dict write: update the existing binding in place, else append. -/
def dinsert {α : Type} : Dict α → String → α → Dict α
  | [], k, v => [(k, v)]
  | (k', v') :: rest, k, v =>
    if k' = k then (k', v) :: rest else (k', v') :: dinsert rest k v

/-- Python `del d[k]` (all bindings of the key are dropped). -/
def derase {α : Type} : Dict α → String → Dict α
  | [], _ => []
  | (k', v) :: rest, k =>
    if k' = k then derase rest k else (k', v) :: derase rest k

/-- Constructor arguments of ConnectionManager (max_pool_size,
    cleanup_interval, idle_timeout, max_lifetime). -/
structure Config where
  max_pool_size : Nat
  cleanup_interval : Int
  idle_timeout : Int
  max_lifetime : Int
  deriving DecidableEq

/-- External facts about the wrapped client handles: whether the
    vector-store close step and the database close/dispose step of
    _cleanup_client raise for a given handle token.  A handle whose
    wrapped objects expose no close attribute simply has the flag false
    (the step is skipped and cannot raise). -/
structure Env where
  vectorCloseFails : Nat → Bool
  dbCloseFails : Nat → Bool

/-- Mutable state of a ConnectionManager: the four per-key dicts
    (_clients, _connection_counts, _last_used, client_created_time), a
    fresh-handle counter standing for _create_client allocations, and the
    cleanup-thread bookkeeping (_cleanup_thread as an optional thread
    token, _stop_cleanup as the Event flag). -/
structure ManagerState where
  clients : Dict Nat
  connection_counts : Dict Int
  last_used : Dict Int
  client_created_time : Dict Int
  next_handle : Nat
  cleanup_thread : Option Nat
  stop_cleanup : Bool
  deriving DecidableEq

/-- Outcome of an operation: normal return, a propagating Python
    exception, or blocking forever on the non-reentrant lock. -/
inductive Res (α : Type) where
  | ok (a : α)
  | exc (msg : String)
  | deadlock
  deriving DecidableEq

/-- ConnectionManager._cleanup_client.  The whole body (both close steps
    and both map deletions) sits inside one try/except: a raising close
    step jumps to the except clause, leaving the maps untouched.  The
    second component logs the handles whose teardown procedure was
    invoked (the key was found present and the close sequence started). -/
def cleanup_client (env : Env) (s : ManagerState) (k : String) :
    ManagerState × List Nat :=
  match dlookup s.clients k with
  | none => (s, [])
  | some h =>
    if env.vectorCloseFails h then (s, [h])
    else if env.dbCloseFails h then (s, [h])
    else ({ s with clients := derase s.clients k,
                   connection_counts := derase s.connection_counts k }, [h])

/-- Sequentially run _cleanup_client over a list of keys, threading the
    state and concatenating the teardown logs (mirrors the
    `for client_id in clients_to_remove` loops). -/
def run_cleanups (env : Env) : List String → ManagerState →
    ManagerState × List Nat
  | [], s => (s, [])
  | k :: rest, s =>
    let r := cleanup_client env s k
    let r2 := run_cleanups env rest r.1
    (r2.1, r.2 ++ r2.2)

/-- ConnectionManager.release_client: under the lock, decrement the count
    if the key is present; if it drops to 0 or below, clean up the client
    synchronously.  Absent key: nothing happens. -/
def release_client (env : Env) (s : ManagerState) (k : String) :
    ManagerState × List Nat :=
  match dlookup s.connection_counts k with
  | none => (s, [])
  | some c =>
    let s1 := { s with connection_counts := dinsert s.connection_counts k (c - 1) }
    if c - 1 ≤ 0 then cleanup_client env s1 k else (s1, [])

/-- ConnectionManager._force_cleanup_idle_connections.  `locked` records
    whether the calling frame already holds the manager's non-reentrant
    lock; the body's `with self._lock` then blocks forever, and blocking
    is not an exception, so the surrounding try/except does not fire. -/
def force_cleanup_idle (cfg : Config) (env : Env) (locked : Bool)
    (now : Int) (s : ManagerState) : Res (ManagerState × List Nat) :=
  if locked then Res.deadlock
  else
    let idle_timeout := cfg.idle_timeout / 2
    let toRemove := ((s.last_used.filter
      (fun p => decide (now - p.2 > idle_timeout))).map Prod.fst)
    Res.ok (run_cleanups env toRemove s)

/-- ConnectionManager.get_client.  Under the lock: for a present key,
    increment its count (a KeyError would propagate if _connection_counts
    lacked the key) and stamp last_used; for an absent key on a full pool,
    call _force_cleanup_idle_connections while still holding the lock
    (which deadlocks on the non-reentrant lock); otherwise create the
    client, initialise its maps, then fall through to the shared
    increment-and-stamp code.  Returns the handle, the new state and the
    teardown log. -/
def get_client (cfg : Config) (env : Env) (now : Int) (s : ManagerState)
    (client_id : String) : Res (Nat × ManagerState × List Nat) :=
  match dlookup s.clients client_id with
  | some h =>
    match dlookup s.connection_counts client_id with
    | none => Res.exc "KeyError"
    | some c =>
      Res.ok (h,
        { s with connection_counts := dinsert s.connection_counts client_id (c + 1),
                 last_used := dinsert s.last_used client_id now }, [])
  | none =>
    let pre : Res (ManagerState × List Nat) :=
      if cfg.max_pool_size ≤ s.clients.length then
        force_cleanup_idle cfg env true now s
      else Res.ok (s, [])
    match pre with
    | Res.deadlock => Res.deadlock
    | Res.exc m => Res.exc m
    | Res.ok (s1, td) =>
      let h := s1.next_handle
      let s2 := { s1 with
        clients := dinsert s1.clients client_id h,
        connection_counts := dinsert s1.connection_counts client_id 0,
        client_created_time := dinsert s1.client_created_time client_id now,
        next_handle := s1.next_handle + 1 }
      Res.ok (h,
        { s2 with connection_counts := dinsert s2.connection_counts client_id 1,
                  last_used := dinsert s2.last_used client_id now }, td)

/-- ConnectionManager.cleanup_all: under the lock, snapshot the keys of
    _clients and run _cleanup_client on each (gc.collect has no effect on
    the modelled state). -/
def cleanup_all (env : Env) (s : ManagerState) : ManagerState × List Nat :=
  run_cleanups env (s.clients.map Prod.fst) s

/-- The marking pass of one _periodic_cleanup iteration: scan _last_used
    under the lock and collect the keys whose idle time exceeds
    idle_timeout or whose lifetime exceeds max_lifetime (created time
    defaults to `now` when the key is missing from client_created_time). -/
def marked (cfg : Config) (now : Int) (s : ManagerState) : List String :=
  ((s.last_used.filter (fun p =>
     let created := (dlookup s.client_created_time p.1).getD now
     decide (now - p.2 > cfg.idle_timeout) ||
       decide (now - created > cfg.max_lifetime))).map Prod.fst)

/-- One iteration of the _periodic_cleanup loop body: mark under the
    lock, release the lock, then run _cleanup_client on each marked key. -/
def periodic_cleanup_scan (cfg : Config) (env : Env) (now : Int)
    (s : ManagerState) : ManagerState × List Nat :=
  run_cleanups env (marked cfg now s) s

/-- External facts for get_connection_count: the DATABASE_URL environment
    variable and the combined outcome of connecting and running the
    pg_stat_activity query against a given url (any raising step is an
    error outcome). -/
structure DiagEnv where
  database_url : Option String
  query_result : String → Except String Int

/-- The try-block of ConnectionManager.get_connection_count: return 0
    when DATABASE_URL is unset or falsy (empty), else the query outcome. -/
def get_connection_count_body (e : DiagEnv) : Except String Int :=
  match e.database_url with
  | none => Except.ok 0
  | some url => if url = "" then Except.ok 0 else e.query_result url

/-- ConnectionManager.get_connection_count: the except-clause turns any
    failure of the body into the sentinel -1. -/
def get_connection_count (e : DiagEnv) : Int :=
  match get_connection_count_body e with
  | Except.ok n => n
  | Except.error _ => -1

/-- ConnectionManager.stop_periodic_cleanup: set the stop event, and join
    the cleanup thread (with a 5 second bound) only if one was ever
    started.  The Bool reports whether join was called; the Except layer
    records that no statement in the body can raise. -/
def stop_periodic_cleanup (s : ManagerState) :
    Except String (ManagerState × Bool) :=
  let s1 := { s with stop_cleanup := true }
  match s1.cleanup_thread with
  | some _ => Except.ok (s1, true)
  | none => Except.ok (s1, false)

/-! ### Embedding of utils.get_mem0_client -/

/-- The environment variables read by utils.get_mem0_client (os.getenv
    yields none when a variable is unset). -/
structure UtilsEnv where
  LLM_PROVIDER : Option String
  LLM_API_KEY : Option String
  LLM_CHOICE : Option String
  EMBEDDING_MODEL_CHOICE : Option String
  EMBEDDING_DIMS : Option String
  LLM_BASE_URL : Option String
  DATABASE_URL : Option String
  deriving DecidableEq

/-- The llm section of the config dict built by get_mem0_client. -/
structure LlmConfig where
  provider : String
  model : Option String
  base_url : Option String
  deriving DecidableEq

/-- The embedder section of the config dict built by get_mem0_client. -/
structure EmbedderConfig where
  provider : String
  model : String
  embedding_dims : Int
  base_url : Option String
  deriving DecidableEq

/-- The vector_store section of the config dict built by get_mem0_client. -/
structure VectorStoreConfig where
  provider : String
  connection_string : String
  collection_name : String
  embedding_model_dims : Int
  deriving DecidableEq

/-- The config dict that get_mem0_client hands to Memory.from_config. -/
structure Mem0Config where
  llm : Option LlmConfig
  embedder : Option EmbedderConfig
  vector_store : VectorStoreConfig
  deriving DecidableEq

/-- Python truthiness on an optional string: None and the empty string
    are falsy. -/
def truthy (v : Option String) : Option String :=
  match v with
  | none => none
  | some s => if s = "" then none else s

/-- Python `x or default` on an optional string. -/
def orDefault (v : Option String) (d : String) : String :=
  match v with
  | none => d
  | some s => if s = "" then d else s

/-- Python `needle in hay` on strings. -/
def strContains (hay needle : String) : Bool :=
  2 ≤ (hay.splitOn needle).length

/-- Python `int(dims) if dims else default` where a malformed string
    raises ValueError. -/
def parseDims (dims : Option String) (default : Int) : Except String Int :=
  match dims with
  | none => Except.ok default
  | some d =>
    if d = "" then Except.ok default
    else match d.toInt? with
      | some n => Except.ok n
      | none => Except.error "ValueError"

/-- utils.get_mem0_client, up to the config dict passed to
    Memory.from_config.  The function performs no validation of its own:
    the only statement in it that can raise is int() on a malformed
    EMBEDDING_DIMS, and the vector-store connection string silently
    defaults to the empty string when DATABASE_URL is absent.  (The
    side-channel writes of OPENAI_API_KEY / OPENROUTER_API_KEY into the
    process environment do not affect the returned config and are not
    modelled.) -/
def get_mem0_client (e : UtilsEnv) : Except String Mem0Config :=
  let llm : Option LlmConfig :=
    if e.LLM_PROVIDER = some "openai" ∨ e.LLM_PROVIDER = some "openrouter" then
      some { provider := "openai", model := e.LLM_CHOICE,
             base_url := truthy e.LLM_BASE_URL }
    else if e.LLM_PROVIDER = some "ollama" then
      some { provider := "ollama", model := e.LLM_CHOICE,
             base_url := truthy e.LLM_BASE_URL }
    else none
  let embedder : Except String (Option EmbedderConfig) :=
    if e.LLM_PROVIDER = some "openai" then
      let default_dims : Int :=
        if e.EMBEDDING_MODEL_CHOICE = some "text-embedding-3-large" then 3072
        else 1536
      (parseDims e.EMBEDDING_DIMS default_dims).map (fun d => some
        { provider := "openai",
          model := orDefault e.EMBEDDING_MODEL_CHOICE "text-embedding-3-small",
          embedding_dims := d,
          base_url := truthy e.LLM_BASE_URL })
    else if e.LLM_PROVIDER = some "ollama" then
      let default_dims : Int :=
        match truthy e.EMBEDDING_MODEL_CHOICE with
        | none => 768
        | some m =>
          if strContains m "nomic-embed-text" then 768
          else if strContains m "all-minilm" then 384
          else 768
      (parseDims e.EMBEDDING_DIMS default_dims).map (fun d => some
        { provider := "ollama",
          model := orDefault e.EMBEDDING_MODEL_CHOICE "nomic-embed-text",
          embedding_dims := d,
          base_url := truthy e.LLM_BASE_URL })
    else Except.ok none
  match embedder with
  | Except.error m => Except.error m
  | Except.ok emb =>
    let embedder_dims : Int :=
      match emb with
      | some c => c.embedding_dims
      | none => 1536
    Except.ok
      { llm := llm, embedder := emb,
        vector_store :=
          { provider := "supabase",
            connection_string := e.DATABASE_URL.getD "",
            collection_name := "mem0_memories",
            embedding_model_dims := embedder_dims } }

/-- Projection used to state that get_mem0_client returned normally with
    a given connection string. -/
def returnedConnString (r : Except String Mem0Config) : Option String :=
  match r with
  | Except.ok c => some c.vector_store.connection_string
  | Except.error _ => none

/-! ### Lock-discipline trace model

    The same code paths, re-expressed as the sequence of primitive
    events they perform, each event later annotated with whether the
    pool's exclusive lock is held when it executes.  acq/rel are the
    enter/exit of `with self._lock`. -/

/-- Primitive events of the manager's methods. -/
inductive Ev where
  | acq
  | rel
  | setClient (k : String)
  | setCount (k : String) (v : Int)
  | setCreated (k : String)
  | setLastUsed (k : String)
  | delClient (k : String)
  | delCount (k : String)
  | closeStep (h : Nat)
  deriving DecidableEq

/-- Event trace of _cleanup_client (no lock operations of its own: it
    runs under whatever lock state its caller is in). -/
def cleanup_client_tr (env : Env) (s : ManagerState) (k : String) : List Ev :=
  match dlookup s.clients k with
  | none => []
  | some h =>
    if env.vectorCloseFails h then [Ev.closeStep h]
    else if env.dbCloseFails h then [Ev.closeStep h]
    else [Ev.closeStep h, Ev.delClient k, Ev.delCount k]

/-- Event trace of running _cleanup_client over a list of keys, threading
    the state exactly as run_cleanups does. -/
def run_cleanups_tr (env : Env) : List String → ManagerState → List Ev
  | [], _ => []
  | k :: rest, s =>
    cleanup_client_tr env s k ++ run_cleanups_tr env rest (cleanup_client env s k).1

/-- Event trace of release_client: everything happens inside
    `with self._lock`. -/
def release_client_tr (env : Env) (s : ManagerState) (k : String) : List Ev :=
  Ev.acq ::
    ((match dlookup s.connection_counts k with
      | none => []
      | some c =>
        Ev.setCount k (c - 1) ::
          (if c - 1 ≤ 0 then
            cleanup_client_tr env
              { s with connection_counts := dinsert s.connection_counts k (c - 1) } k
          else [])) ++ [Ev.rel])

/-- Event trace of get_client on its non-blocking paths (present key, or
    absent key with room in the pool); the full-pool path deadlocks and
    the missing-count path raises, so neither yields a trace. -/
def get_client_tr (cfg : Config) (env : Env) (now : Int) (s : ManagerState)
    (k : String) : Res (List Ev) :=
  match dlookup s.clients k with
  | some _ =>
    match dlookup s.connection_counts k with
    | none => Res.exc "KeyError"
    | some c =>
      Res.ok [Ev.acq, Ev.setCount k (c + 1), Ev.setLastUsed k, Ev.rel]
  | none =>
    if cfg.max_pool_size ≤ s.clients.length then Res.deadlock
    else
      Res.ok [Ev.acq, Ev.setClient k, Ev.setCount k 0, Ev.setCreated k,
              Ev.setCount k 1, Ev.setLastUsed k, Ev.rel]

/-- Event trace of cleanup_all: the key snapshot and every
    _cleanup_client call happen inside `with self._lock`. -/
def cleanup_all_tr (env : Env) (s : ManagerState) : List Ev :=
  Ev.acq :: (run_cleanups_tr env (s.clients.map Prod.fst) s ++ [Ev.rel])

/-- Event trace of one _periodic_cleanup iteration: the marking pass
    holds the lock but performs no mutation; the lock is then released
    and every _cleanup_client call runs outside it. -/
def periodic_scan_tr (cfg : Config) (env : Env) (now : Int)
    (s : ManagerState) : List Ev :=
  Ev.acq :: Ev.rel :: run_cleanups_tr env (marked cfg now s) s

/-- Annotate each event with whether the lock is held when it executes,
    given whether it is held before the trace starts. -/
def annotate (held : Bool) : List Ev → List (Ev × Bool)
  | [] => []
  | Ev.acq :: es => (Ev.acq, held) :: annotate true es
  | Ev.rel :: es => (Ev.rel, held) :: annotate false es
  | e :: es => (e, held) :: annotate held es

/-- Lock enter/exit events. -/
def isLockOp : Ev → Bool
  | Ev.acq => true
  | Ev.rel => true
  | _ => false

/-- The events the claim is about: mutations of a refcount and removals
    of an entry from the pool maps. -/
def isRefcountOrRemoval : Ev → Bool
  | Ev.setCount _ _ => true
  | Ev.delClient _ => true
  | Ev.delCount _ => true
  | _ => false

/-- Refcount mutations and map removals performed while the lock is NOT
    held (trace annotated starting from the unlocked state). -/
def mutationsOutsideLock (tr : List Ev) : List Ev :=
  ((annotate false tr).filter
    (fun p => isRefcountOrRemoval p.1 && !p.2)).map Prod.fst

/-- Refcount mutations and map removals performed while the lock IS
    held (trace annotated starting from the unlocked state). -/
def mutationsInsideLock (tr : List Ev) : List Ev :=
  ((annotate false tr).filter
    (fun p => isRefcountOrRemoval p.1 && p.2)).map Prod.fst

/-! ### Concrete inputs used by witnesses and counterexamples -/

/-- Environment in which every close step succeeds. -/
def envOk : Env := ⟨fun _ => false, fun _ => false⟩

/-- Environment in which the vector-store close step raises for every
    handle. -/
def envVecFail : Env := ⟨fun _ => true, fun _ => false⟩

/-- The default constructor arguments of ConnectionManager. -/
def cfgDefault : Config := ⟨10, 300, 600, 3600⟩

/-- A manager configured with max_pool_size 1. -/
def cfgSmall : Config := ⟨1, 300, 600, 3600⟩

/-- A freshly constructed manager. -/
def st0 : ManagerState := ⟨[], [], [], [], 0, none, false⟩

/-- A manager holding one client under key a (handle 0, refcount 1,
    created and last used at time 0). -/
def stA : ManagerState := ⟨[("a", 0)], [("a", 1)], [("a", 0)], [("a", 0)], 1, none, false⟩

/-- A diagnostic environment whose query always fails. -/
def diagFail : DiagEnv := ⟨some "postgres", fun _ => Except.error "boom"⟩

/-- Environment variables with only LLM_PROVIDER set (DATABASE_URL
    absent). -/
def envU7 : UtilsEnv := ⟨some "openai", none, none, none, none, none, none⟩

/-! ### Dictionary lemmas -/

theorem dlookup_derase_self {α : Type} (m : Dict α) (k : String) :
    dlookup (derase m k) k = none := by
  induction m with
  | nil => rfl
  | cons p rest ih =>
    cases p with
    | mk pk pv =>
      by_cases h : pk = k
      · simpa [derase, h] using ih
      · simp [derase, h, dlookup, ih]

theorem dlookup_derase_ne {α : Type} (m : Dict α) (k k' : String)
    (h : k' ≠ k) : dlookup (derase m k) k' = dlookup m k' := by
  induction m with
  | nil => rfl
  | cons p rest ih =>
    cases p with
    | mk pk pv =>
      by_cases hp : pk = k
      · have hpk : pk ≠ k' := by rw [hp]; exact Ne.symm h
        simp [derase, hp, dlookup, hpk, ih, Ne.symm h]
      · by_cases hq : pk = k'
        · simp [derase, hp, dlookup, hq, h]
        · simp [derase, hp, dlookup, hq, ih]

theorem dlookup_dinsert_self {α : Type} (m : Dict α) (k : String) (v : α) :
    dlookup (dinsert m k v) k = some v := by
  induction m with
  | nil => simp [dinsert, dlookup]
  | cons p rest ih =>
    cases p with
    | mk pk pv =>
      by_cases h : pk = k
      · simp [dinsert, h, dlookup]
      · simp [dinsert, h, dlookup, ih]

theorem dlookup_dinsert_ne {α : Type} (m : Dict α) (k k' : String) (v : α)
    (h : k' ≠ k) : dlookup (dinsert m k v) k' = dlookup m k' := by
  induction m with
  | nil => simp [dinsert, dlookup, Ne.symm h]
  | cons p rest ih =>
    cases p with
    | mk pk pv =>
      by_cases hp : pk = k
      · simp [dinsert, hp, dlookup, ih, Ne.symm h]
      · simp [dinsert, hp, dlookup, ih]

theorem dlookup_mem {α : Type} (m : Dict α) (k : String) (v : α)
    (h : dlookup m k = some v) : (k, v) ∈ m := by
  induction m with
  | nil => simp [dlookup] at h
  | cons p rest ih =>
    cases p with
    | mk pk pv =>
      by_cases hp : pk = k
      · simp only [dlookup, hp, if_pos] at h
        have hv : pv = v := by simpa using h
        subst hp
        subst hv
        exact List.mem_cons_self _ _
      · simp only [dlookup, hp, if_false, ite_false] at h
        exact List.mem_cons_of_mem _ (ih h)

theorem eq_nil_of_dlookup_none {α : Type} (m : Dict α)
    (h : ∀ k, dlookup m k = none) : m = [] := by
  cases m with
  | nil => rfl
  | cons p rest =>
    have := h p.1
    simp [dlookup] at this

/-! ### Lemmas about _cleanup_client and the cleanup loops -/

theorem cleanup_client_success (env : Env) (s : ManagerState) (k : String)
    (h : Nat) (hcl : dlookup s.clients k = some h)
    (hv : env.vectorCloseFails h = false) (hd : env.dbCloseFails h = false) :
    cleanup_client env s k =
      ({ s with clients := derase s.clients k,
                connection_counts := derase s.connection_counts k }, [h]) := by
  simp [cleanup_client, hcl, hv, hd]

theorem cleanup_client_clients_ne (env : Env) (s : ManagerState)
    (k k' : String) (h : k' ≠ k) :
    dlookup (cleanup_client env s k).1.clients k' = dlookup s.clients k' := by
  unfold cleanup_client
  cases hcl : dlookup s.clients k with
  | none => rfl
  | some hh =>
    by_cases hv : env.vectorCloseFails hh
    · simp [hv]
    · by_cases hd : env.dbCloseFails hh
      · simp [hv, hd]
      · simp [hv, hd, dlookup_derase_ne _ _ _ h]

theorem cleanup_client_clients_none (env : Env) (s : ManagerState)
    (k k' : String) (h : dlookup s.clients k' = none) :
    dlookup (cleanup_client env s k).1.clients k' = none := by
  unfold cleanup_client
  cases hcl : dlookup s.clients k with
  | none => exact h
  | some hh =>
    by_cases hv : env.vectorCloseFails hh
    · simpa [hv]
    · by_cases hd : env.dbCloseFails hh
      · simp [hv, hd, h]
      · by_cases hk : k' = k
        · simp [hv, hd, hk, dlookup_derase_self]
        · simp [hv, hd, dlookup_derase_ne _ _ _ hk, h]

theorem cleanup_client_counts_ne (env : Env) (s : ManagerState)
    (k k' : String) (h : k' ≠ k) :
    dlookup (cleanup_client env s k).1.connection_counts k' =
      dlookup s.connection_counts k' := by
  unfold cleanup_client
  cases hcl : dlookup s.clients k with
  | none => rfl
  | some hh =>
    by_cases hv : env.vectorCloseFails hh
    · simp [hv]
    · by_cases hd : env.dbCloseFails hh
      · simp [hv, hd]
      · simp [hv, hd, dlookup_derase_ne _ _ _ h]

theorem cleanup_client_counts_none (env : Env) (s : ManagerState)
    (k k' : String) (h : dlookup s.connection_counts k' = none) :
    dlookup (cleanup_client env s k).1.connection_counts k' = none := by
  unfold cleanup_client
  cases hcl : dlookup s.clients k with
  | none => exact h
  | some hh =>
    by_cases hv : env.vectorCloseFails hh
    · simpa [hv]
    · by_cases hd : env.dbCloseFails hh
      · simp [hv, hd, h]
      · by_cases hk : k' = k
        · simp [hv, hd, hk, dlookup_derase_self]
        · simp [hv, hd, dlookup_derase_ne _ _ _ hk, h]

theorem cleanup_client_time_maps (env : Env) (s : ManagerState) (k : String) :
    (cleanup_client env s k).1.last_used = s.last_used ∧
    (cleanup_client env s k).1.client_created_time = s.client_created_time := by
  unfold cleanup_client
  cases hcl : dlookup s.clients k with
  | none => exact ⟨rfl, rfl⟩
  | some hh =>
    by_cases hv : env.vectorCloseFails hh
    · simp [hv]
    · by_cases hd : env.dbCloseFails hh
      · simp [hv, hd]
      · simp [hv, hd]

theorem run_cleanups_clients_none (env : Env) (ks : List String)
    (s : ManagerState) (k : String) (h : dlookup s.clients k = none) :
    dlookup (run_cleanups env ks s).1.clients k = none := by
  induction ks generalizing s with
  | nil => exact h
  | cons k0 rest ih =>
    exact ih _ (cleanup_client_clients_none env s k0 k h)

theorem run_cleanups_counts_none (env : Env) (ks : List String)
    (s : ManagerState) (k : String) (h : dlookup s.connection_counts k = none) :
    dlookup (run_cleanups env ks s).1.connection_counts k = none := by
  induction ks generalizing s with
  | nil => exact h
  | cons k0 rest ih =>
    exact ih _ (cleanup_client_counts_none env s k0 k h)

theorem run_cleanups_removes (env : Env) (ks : List String)
    (s : ManagerState) (k : String) (h : Nat) (hk : k ∈ ks)
    (hcl : dlookup s.clients k = some h)
    (hv : env.vectorCloseFails h = false) (hd : env.dbCloseFails h = false) :
    dlookup (run_cleanups env ks s).1.clients k = none ∧
    dlookup (run_cleanups env ks s).1.connection_counts k = none := by
  induction ks generalizing s with
  | nil => cases hk
  | cons k0 rest ih =>
    by_cases hkk : k = k0
    · subst hkk
      have hstep := cleanup_client_success env s k h hcl hv hd
      have hnone : dlookup (cleanup_client env s k).1.clients k = none := by
        rw [hstep]
        exact dlookup_derase_self _ _
      have hnonec :
          dlookup (cleanup_client env s k).1.connection_counts k = none := by
        rw [hstep]
        exact dlookup_derase_self _ _
      exact ⟨run_cleanups_clients_none env rest _ k hnone,
             run_cleanups_counts_none env rest _ k hnonec⟩
    · have hk' : k ∈ rest := by
        cases hk with
        | head => exact absurd rfl hkk
        | tail _ hm => exact hm
      have hcl' : dlookup (cleanup_client env s k0).1.clients k = some h := by
        rw [cleanup_client_clients_ne env s k0 k hkk]
        exact hcl
      exact ih _ hk' hcl'

theorem run_cleanups_time_maps (env : Env) (ks : List String)
    (s : ManagerState) :
    (run_cleanups env ks s).1.last_used = s.last_used ∧
    (run_cleanups env ks s).1.client_created_time = s.client_created_time := by
  induction ks generalizing s with
  | nil => exact ⟨rfl, rfl⟩
  | cons k0 rest ih =>
    have h0 := cleanup_client_time_maps env s k0
    have h1 := ih (cleanup_client env s k0).1
    exact ⟨h1.1.trans h0.1, h1.2.trans h0.2⟩

theorem run_cleanups_retains_vector_failed (env : Env) (ks : List String)
    (s : ManagerState) (k : String) (h : Nat)
    (hcl : dlookup s.clients k = some h)
    (hv : env.vectorCloseFails h = true) :
    dlookup (run_cleanups env ks s).1.clients k = some h := by
  induction ks generalizing s with
  | nil => exact hcl
  | cons k0 rest ih =>
    by_cases hkk : k = k0
    · subst hkk
      have hstep : cleanup_client env s k = (s, [h]) := by
        simp [cleanup_client, hcl, hv]
      apply ih
      rw [hstep]
      exact hcl
    · apply ih
      rw [cleanup_client_clients_ne env s k0 k hkk]
      exact hcl

theorem cleanup_client_log (env : Env) (s : ManagerState) (k : String)
    (h : Nat) (hcl : dlookup s.clients k = some h) :
    (cleanup_client env s k).2 = [h] := by
  unfold cleanup_client
  rw [hcl]
  by_cases hv : env.vectorCloseFails h
  · simp [hv]
  · by_cases hd : env.dbCloseFails h
    · simp [hv, hd]
    · simp [hv, hd]

theorem run_cleanups_log (env : Env) (l : Dict Nat) :
    ∀ s : ManagerState, (l.map Prod.fst).Nodup →
    (∀ k, k ∈ l.map Prod.fst → dlookup s.clients k = dlookup l k) →
    (run_cleanups env (l.map Prod.fst) s).2 = l.map Prod.snd := by
  induction l with
  | nil => intro s _ _; rfl
  | cons p rest ih =>
    intro s hnd hagree
    cases p with
    | mk k0 h0 =>
      have hnd' := hnd
      rw [List.map_cons, List.nodup_cons] at hnd'
      have hk0 : dlookup s.clients k0 = some h0 := by
        have := hagree k0 (by simp)
        simpa [dlookup] using this
      have hlog := cleanup_client_log env s k0 h0 hk0
      have hagree' : ∀ k, k ∈ rest.map Prod.fst →
          dlookup (cleanup_client env s k0).1.clients k = dlookup rest k := by
        intro k hkm
        have hne : k ≠ k0 := fun hkeq => hnd'.1 (hkeq ▸ hkm)
        rw [cleanup_client_clients_ne env s k0 k hne]
        have := hagree k (by simp [hkm])
        rwa [show dlookup ((k0, h0) :: rest) k = dlookup rest k by
          simp [dlookup, Ne.symm hne]] at this
      have hrest := ih (cleanup_client env s k0).1 hnd'.2 hagree'
      show (cleanup_client env s k0).2 ++
        (run_cleanups env (rest.map Prod.fst) (cleanup_client env s k0).1).2 =
        h0 :: rest.map Prod.snd
      rw [hlog, hrest]
      rfl

theorem cleanup_all_clients_empty (env : Env) (s : ManagerState)
    (hok : ∀ k h, dlookup s.clients k = some h →
      env.vectorCloseFails h = false ∧ env.dbCloseFails h = false) :
    (cleanup_all env s).1.clients = [] := by
  apply eq_nil_of_dlookup_none
  intro k
  cases hcl : dlookup s.clients k with
  | none => exact run_cleanups_clients_none env _ s k hcl
  | some h =>
    have hkmem : k ∈ s.clients.map Prod.fst :=
      List.mem_map.mpr ⟨(k, h), dlookup_mem _ _ _ hcl, rfl⟩
    exact (run_cleanups_removes env _ s k h hkmem hcl
      (hok k h hcl).1 (hok k h hcl).2).1

/-! ### Lemmas about the lock-discipline traces -/

theorem cleanup_client_tr_no_lock (env : Env) (s : ManagerState)
    (k : String) : ∀ e ∈ cleanup_client_tr env s k, isLockOp e = false := by
  intro e he
  unfold cleanup_client_tr at he
  cases hcl : dlookup s.clients k with
  | none =>
    rw [hcl] at he
    cases he
  | some h =>
    rw [hcl] at he
    have hcases : e = Ev.closeStep h ∨ e = Ev.delClient k ∨ e = Ev.delCount k := by
      by_cases hv : env.vectorCloseFails h
      · simp [hv] at he
        simp [he]
      · by_cases hd : env.dbCloseFails h
        · simp [hv, hd] at he
          simp [he]
        · simp [hv, hd] at he
          tauto
    rcases hcases with rfl | rfl | rfl <;> rfl

theorem run_cleanups_tr_no_lock (env : Env) (ks : List String) :
    ∀ s : ManagerState, ∀ e ∈ run_cleanups_tr env ks s, isLockOp e = false := by
  induction ks with
  | nil => intro s e he; cases he
  | cons k0 rest ih =>
    intro s e he
    unfold run_cleanups_tr at he
    rcases List.mem_append.mp he with h1 | h2
    · exact cleanup_client_tr_no_lock env s k0 e h1
    · exact ih _ e h2

theorem annotate_append_no_lock (b : Bool) (l1 l2 : List Ev)
    (h : ∀ e ∈ l1, isLockOp e = false) :
    annotate b (l1 ++ l2) = l1.map (fun e => (e, b)) ++ annotate b l2 := by
  induction l1 with
  | nil => rfl
  | cons e es ih =>
    have he := h e (List.mem_cons_self _ _)
    have hes : ∀ x ∈ es, isLockOp x = false :=
      fun x hx => h x (List.mem_cons_of_mem _ hx)
    cases e with
    | acq => simp [isLockOp] at he
    | rel => simp [isLockOp] at he
    | setClient k => simp [annotate, ih hes]
    | setCount k v => simp [annotate, ih hes]
    | setCreated k => simp [annotate, ih hes]
    | setLastUsed k => simp [annotate, ih hes]
    | delClient k => simp [annotate, ih hes]
    | delCount k => simp [annotate, ih hes]
    | closeStep h0 => simp [annotate, ih hes]

theorem annotate_no_lockops (b : Bool) (l : List Ev)
    (h : ∀ e ∈ l, isLockOp e = false) :
    annotate b l = l.map (fun e => (e, b)) := by
  have h0 : annotate b ([] : List Ev) = [] := rfl
  calc annotate b l = annotate b (l ++ []) := by rw [List.append_nil]
    _ = l.map (fun e => (e, b)) ++ annotate b [] :=
        annotate_append_no_lock b l [] h
    _ = l.map (fun e => (e, b)) := by rw [h0, List.append_nil]

theorem filter_inside_const_false (l : List Ev) :
    (l.map (fun e => (e, false))).filter
      (fun p => isRefcountOrRemoval p.1 && p.2) = [] := by
  induction l with
  | nil => rfl
  | cons e es ih => simp [ih]

theorem filter_outside_const_true (l : List Ev) :
    (l.map (fun e => (e, true))).filter
      (fun p => isRefcountOrRemoval p.1 && !p.2) = [] := by
  induction l with
  | nil => rfl
  | cons e es ih => simp [ih]

theorem mutationsOutsideLock_locked_body (body : List Ev)
    (h : ∀ e ∈ body, isLockOp e = false) :
    mutationsOutsideLock (Ev.acq :: (body ++ [Ev.rel])) = [] := by
  unfold mutationsOutsideLock
  have h1 : annotate false (Ev.acq :: (body ++ [Ev.rel])) =
      (Ev.acq, false) :: annotate true (body ++ [Ev.rel]) := rfl
  rw [h1, annotate_append_no_lock true body [Ev.rel] h]
  simp only [List.filter_cons, List.filter_append]
  simp [isRefcountOrRemoval, annotate, filter_outside_const_true]

/-! ### Claim theorems -/

/-- C1: the claim says get_client with an absent key on a full pool never
    blocks (pressure-evict, then admit anyway).  In the code this path is
    a self-deadlock: get_client holds the manager's non-reentrant
    threading.Lock and calls _force_cleanup_idle_connections, whose
    `with self._lock` then blocks forever (blocking is not an exception,
    so the surrounding try/except does not fire).  This theorem evaluates
    the code on that path: whenever the key is absent and the pool is at
    or over capacity, get_client deadlocks instead of returning. -/
theorem get_client_full_pool_deadlocks (cfg : Config) (env : Env) (now : Int)
    (s : ManagerState) (k : String) (habs : dlookup s.clients k = none)
    (hfull : cfg.max_pool_size ≤ s.clients.length) :
    get_client cfg env now s k = Res.deadlock := by
  unfold get_client
  rw [habs]
  simp [hfull, force_cleanup_idle]

/-- C1 witness: a pool of capacity 1 already holding key a deadlocks on
    get_client of the new key b. -/
theorem get_client_full_pool_deadlocks_witness :
    get_client cfgSmall envOk 0 stA "b" = Res.deadlock :=
  get_client_full_pool_deadlocks cfgSmall envOk 0 stA "b"
    (by decide) (by decide)

/-- C2 counterexample: the claim says a failing close step never prevents
    removing the entry from the map, so cleanup_all always empties the
    map.  In the code the two close steps and both map deletions share
    one try/except, so a raising vector-store close skips the deletions:
    after cleanup_all over a pool whose single entry has a raising
    vector-store close, the entry is still in the map. -/
theorem cleanup_all_retains_failed_entry :
    dlookup (cleanup_all envVecFail stA).1.clients "a" = some 0 := by decide

/-- C2 amended: tearing down an entry invokes its teardown procedure
    exactly once per entry (cleanup_all logs each handle exactly once),
    and a close failure is caught and logged and does not propagate to
    the caller, but it aborts the remaining close steps and the map
    removal of that entry: cleanup_all empties the map when no entry's
    close step raises, while an entry whose vector-store close raises
    remains in the map. -/
theorem cleanup_all_amended (env : Env) (s : ManagerState)
    (hnd : (s.clients.map Prod.fst).Nodup) :
    (cleanup_all env s).2 = s.clients.map Prod.snd
    ∧ ((∀ k h, dlookup s.clients k = some h →
        env.vectorCloseFails h = false ∧ env.dbCloseFails h = false) →
      (cleanup_all env s).1.clients = [])
    ∧ (∀ k h, dlookup s.clients k = some h → env.vectorCloseFails h = true →
        dlookup (cleanup_all env s).1.clients k = some h) := by
  refine ⟨?_, ?_, ?_⟩
  · exact run_cleanups_log env s.clients s hnd (fun k _ => rfl)
  · intro hok
    exact cleanup_all_clients_empty env s hok
  · intro k h hcl hv
    exact run_cleanups_retains_vector_failed env _ s k h hcl hv

/-- C2 witness: on a one-entry pool whose close steps succeed, cleanup_all
    logs exactly that handle and empties the map; vacuously, no failing
    entry is retained. -/
theorem cleanup_all_amended_witness :
    (cleanup_all envOk stA).2 = stA.clients.map Prod.snd
    ∧ ((∀ k h, dlookup stA.clients k = some h →
        envOk.vectorCloseFails h = false ∧ envOk.dbCloseFails h = false) →
      (cleanup_all envOk stA).1.clients = [])
    ∧ (∀ k h, dlookup stA.clients k = some h →
        envOk.vectorCloseFails h = true →
        dlookup (cleanup_all envOk stA).1.clients k = some h) :=
  cleanup_all_amended envOk stA (by decide)

/-- C3 counterexample: the claim says every removal of an entry happens
    while holding the pool's lock, including the reclaimer's eviction.
    In the code _periodic_cleanup releases the lock after marking and
    calls _cleanup_client outside it: on a pool whose entry a is idle
    past the timeout, the reclaimer's map removal of a executes with the
    lock not held. -/
theorem reclaimer_removal_outside_lock :
    (Ev.delClient "a", false) ∈
      annotate false (periodic_scan_tr cfgDefault envOk 1000 stA) := by decide

/-- C3 amended: refcount mutations and map removals performed by
    release_client, cleanup_all and the non-blocking paths of get_client
    all execute while the lock is held, but the background reclaimer
    performs every refcount mutation and map removal after releasing the
    lock (its locked marking phase mutates nothing), so a concurrent
    acquirer could resurrect a key mid-teardown. -/
theorem lock_discipline_amended (cfg : Config) (env : Env) (now : Int)
    (s : ManagerState) (k : String) :
    mutationsOutsideLock (release_client_tr env s k) = []
    ∧ mutationsOutsideLock (cleanup_all_tr env s) = []
    ∧ (∀ tr, get_client_tr cfg env now s k = Res.ok tr →
        mutationsOutsideLock tr = [])
    ∧ mutationsInsideLock (periodic_scan_tr cfg env now s) = [] := by
  refine ⟨?_, ?_, ?_, ?_⟩
  · unfold release_client_tr
    apply mutationsOutsideLock_locked_body
    intro e he
    cases hc : dlookup s.connection_counts k with
    | none =>
      rw [hc] at he
      cases he
    | some c =>
      rw [hc] at he
      rcases List.mem_cons.mp he with rfl | he2
      · rfl
      · by_cases hif : c - 1 ≤ 0
        · rw [if_pos hif] at he2
          exact cleanup_client_tr_no_lock env _ k e he2
        · rw [if_neg hif] at he2
          cases he2
  · unfold cleanup_all_tr
    apply mutationsOutsideLock_locked_body
    intro e he
    exact run_cleanups_tr_no_lock env _ s e he
  · intro tr htr
    unfold get_client_tr at htr
    cases hcl : dlookup s.clients k with
    | some h =>
      rw [hcl] at htr
      cases hc : dlookup s.connection_counts k with
      | none =>
        rw [hc] at htr
        cases htr
      | some c =>
        rw [hc] at htr
        cases htr
        rfl
    | none =>
      rw [hcl] at htr
      by_cases hfull : cfg.max_pool_size ≤ s.clients.length
      · rw [if_pos hfull] at htr
        cases htr
      · rw [if_neg hfull] at htr
        cases htr
        rfl
  · unfold mutationsInsideLock periodic_scan_tr
    have h1 : annotate false
        (Ev.acq :: Ev.rel :: run_cleanups_tr env (marked cfg now s) s) =
        (Ev.acq, false) :: (Ev.rel, true) ::
          annotate false (run_cleanups_tr env (marked cfg now s) s) := rfl
    rw [h1, annotate_no_lockops false _
      (fun e he => run_cleanups_tr_no_lock env _ s e he)]
    simp [isRefcountOrRemoval, filter_inside_const_false]

/-- C3 witness: on a pool holding key a with refcount 1, the refcount
    mutation of a get_client reuse executes under the lock. -/
theorem lock_discipline_amended_witness :
    mutationsOutsideLock
      [Ev.acq, Ev.setCount "a" 2, Ev.setLastUsed "a", Ev.rel] = [] :=
  (lock_discipline_amended cfgDefault envOk 0 stA "a").2.2.1 _ (by decide)

/-- C4: on a reclaimer scan, every entry whose idle time exceeds
    idle_timeout or whose lifetime exceeds max_lifetime is marked and
    evicted, whatever its current refcount (the scan never consults
    _connection_counts; rc below is arbitrary).  Eviction is stated for
    entries whose close steps succeed, since a raising close step aborts
    the removal (see C2). -/
theorem periodic_scan_evicts_expired (cfg : Config) (env : Env) (now : Int)
    (s : ManagerState) (k : String) (lu rc : Int) (h : Nat)
    (hlu : dlookup s.last_used k = some lu)
    (hrc : dlookup s.connection_counts k = some rc)
    (hcl : dlookup s.clients k = some h)
    (hexp : now - lu > cfg.idle_timeout ∨
      now - ((dlookup s.client_created_time k).getD now) > cfg.max_lifetime)
    (hv : env.vectorCloseFails h = false) (hd : env.dbCloseFails h = false) :
    dlookup (periodic_cleanup_scan cfg env now s).1.clients k = none ∧
    dlookup (periodic_cleanup_scan cfg env now s).1.connection_counts k = none := by
  have hmem : k ∈ marked cfg now s := by
    unfold marked
    refine List.mem_map.mpr ⟨(k, lu), ?_, rfl⟩
    refine List.mem_filter.mpr ⟨dlookup_mem _ _ _ hlu, ?_⟩
    rcases hexp with h1 | h1 <;> simp [h1]
  exact run_cleanups_removes env _ s k h hmem hcl hv hd

/-- C4 witness: an entry with refcount 1 on a default-configured pool,
    idle 1000 seconds against a 600 second timeout, is evicted by the
    scan. -/
theorem periodic_scan_evicts_expired_witness :
    dlookup (periodic_cleanup_scan cfgDefault envOk 1000 stA).1.clients "a"
        = none ∧
    dlookup (periodic_cleanup_scan cfgDefault envOk 1000 stA).1.connection_counts "a"
        = none :=
  periodic_scan_evicts_expired cfgDefault envOk 1000 stA "a" 0 1 0
    (by decide) (by decide) (by decide) (by decide) (by decide) (by decide)

/-- C5: release_client on an absent key is a no-op that never raises; on
    a present key it decrements the refcount, and when the refcount drops
    to 0 or below it synchronously tears down and removes the entry (the
    removal stated for entries whose close steps succeed, see C2). -/
theorem release_client_spec (env : Env) (s : ManagerState) (k : String) :
    (dlookup s.connection_counts k = none → release_client env s k = (s, []))
    ∧ (∀ c, dlookup s.connection_counts k = some c → 1 < c →
      release_client env s k =
        ({ s with connection_counts := dinsert s.connection_counts k (c - 1) },
          []))
    ∧ (∀ c h, dlookup s.connection_counts k = some c → c ≤ 1 →
      dlookup s.clients k = some h →
      env.vectorCloseFails h = false → env.dbCloseFails h = false →
      dlookup (release_client env s k).1.clients k = none ∧
      dlookup (release_client env s k).1.connection_counts k = none) := by
  refine ⟨?_, ?_, ?_⟩
  · intro h0
    simp [release_client, h0]
  · intro c hc hgt
    have hif : ¬ c - 1 ≤ 0 := by omega
    simp [release_client, hc, hif]
  · intro c h hc hle hcl hv hd
    have hif : c - 1 ≤ 0 := by omega
    have hred : release_client env s k = cleanup_client env
        { s with connection_counts := dinsert s.connection_counts k (c - 1) }
        k := by
      simp [release_client, hc, hif]
    have hcl1 : dlookup ({ s with
        connection_counts := dinsert s.connection_counts k (c - 1) } :
          ManagerState).clients k = some h := hcl
    have hstep := cleanup_client_success env _ k h hcl1 hv hd
    rw [hred, hstep]
    exact ⟨dlookup_derase_self _ _, dlookup_derase_self _ _⟩

/-- C5 witness: releasing key a with refcount 1 removes the entry and its
    refcount synchronously. -/
theorem release_client_spec_witness :
    dlookup (release_client envOk stA "a").1.clients "a" = none ∧
    dlookup (release_client envOk stA "a").1.connection_counts "a" = none :=
  (release_client_spec envOk stA "a").2.2 1 0
    (by decide) (by decide) (by decide) (by decide) (by decide)

/-- C6: acquiring key a once on a fresh pool yields refcount 1; the first
    release drops the refcount to 0 and synchronously tears down the
    entry, so after the second release the entry is removed, the second
    release is a no-op leaving the state unchanged (never raising), and
    no negative refcount is ever stored: release-underflow floors at
    removal. -/
theorem acquire_once_release_twice :
    get_client cfgDefault envOk 0 st0 "a" = Res.ok (0, stA, [])
    ∧ (release_client envOk stA "a").1 =
        { stA with clients := [], connection_counts := [] }
    ∧ release_client envOk
        { stA with clients := [], connection_counts := [] } "a" =
        ({ stA with clients := [], connection_counts := [] }, [])
    ∧ dlookup (release_client envOk
        { stA with clients := [], connection_counts := [] } "a").1.clients "a"
        = none
    ∧ dlookup (release_client envOk
        { stA with clients := [], connection_counts := [] } "a").1.connection_counts
        "a" = none := by decide

/-- C7 counterexample: the claim says the factory raises
    ConfigurationError when DATABASE_URL is absent.  The code performs no
    such validation (no ConfigurationError exists anywhere in it): with
    DATABASE_URL unset it returns normally, silently passing the empty
    string as the vector-store connection string. -/
theorem get_mem0_client_missing_db_url_ok :
    returnedConnString (get_mem0_client envU7) = some "" := by decide

/-- C7 amended: get_mem0_client performs no configuration validation and
    never raises a ConfigurationError; whenever EMBEDDING_DIMS is unset
    (the only input whose parsing can raise, a ValueError), it returns
    normally for every environment, with the vector-store connection
    string defaulting to the empty string when DATABASE_URL is absent. -/
theorem get_mem0_client_amended (e : UtilsEnv)
    (hd : e.EMBEDDING_DIMS = none) :
    ∃ c, get_mem0_client e = Except.ok c ∧
      c.vector_store.connection_string = e.DATABASE_URL.getD "" ∧
      c.vector_store.provider = "supabase" ∧
      c.vector_store.collection_name = "mem0_memories" := by
  unfold get_mem0_client
  rw [hd]
  simp only [parseDims, Except.map]
  split_ifs <;> exact ⟨_, rfl, rfl, rfl, rfl⟩

/-- C7 witness: with only LLM_PROVIDER set, the factory returns a config
    whose connection string is empty. -/
theorem get_mem0_client_amended_witness :
    ∃ c, get_mem0_client envU7 = Except.ok c ∧
      c.vector_store.connection_string = envU7.DATABASE_URL.getD "" ∧
      c.vector_store.provider = "supabase" ∧
      c.vector_store.collection_name = "mem0_memories" :=
  get_mem0_client_amended envU7 rfl

/-- C8: tearing down an entry (directly, via release reaching refcount 0,
    via the reclaimer scan, or via cleanup_all) never touches _last_used
    or client_created_time, so those two maps retain every key ever
    acquired: an entry removed from _clients by a successful teardown
    still has its _last_used binding, breaking the shared-key-domain
    invariant across the four per-key maps. -/
theorem teardown_preserves_time_maps (env : Env) (s : ManagerState)
    (k : String) :
    ((cleanup_client env s k).1.last_used = s.last_used
      ∧ (cleanup_client env s k).1.client_created_time = s.client_created_time)
    ∧ ((release_client env s k).1.last_used = s.last_used
      ∧ (release_client env s k).1.client_created_time = s.client_created_time)
    ∧ (∀ cfg now,
        (periodic_cleanup_scan cfg env now s).1.last_used = s.last_used
      ∧ (periodic_cleanup_scan cfg env now s).1.client_created_time =
          s.client_created_time)
    ∧ ((cleanup_all env s).1.last_used = s.last_used
      ∧ (cleanup_all env s).1.client_created_time = s.client_created_time)
    ∧ (∀ h lu, dlookup s.clients k = some h → dlookup s.last_used k = some lu →
        env.vectorCloseFails h = false → env.dbCloseFails h = false →
        dlookup (cleanup_client env s k).1.clients k = none
        ∧ dlookup (cleanup_client env s k).1.last_used k = some lu) := by
  refine ⟨cleanup_client_time_maps env s k, ?_, ?_, ?_, ?_⟩
  · cases hc : dlookup s.connection_counts k with
    | none => simp [release_client, hc]
    | some c =>
      by_cases hif : c - 1 ≤ 0
      · have := cleanup_client_time_maps env
          { s with connection_counts := dinsert s.connection_counts k (c - 1) } k
        simpa [release_client, hc, hif] using this
      · simp [release_client, hc, hif]
  · intro cfg now
    exact run_cleanups_time_maps env _ s
  · exact run_cleanups_time_maps env _ s
  · intro h lu hcl hlu hv hd
    have hstep := cleanup_client_success env s k h hcl hv hd
    rw [hstep]
    exact ⟨dlookup_derase_self _ _, hlu⟩

/-- C8 witness: evicting key a removes it from _clients but its
    _last_used binding survives. -/
theorem teardown_preserves_time_maps_witness :
    dlookup (cleanup_client envOk stA "a").1.clients "a" = none
    ∧ dlookup (cleanup_client envOk stA "a").1.last_used "a" = some 0 :=
  (teardown_preserves_time_maps envOk stA "a").2.2.2.2 0 0
    (by decide) (by decide) (by decide) (by decide)

/-- C9: get_connection_count never raises: whenever its body (connect
    plus diagnostic query) fails, the except clause returns the sentinel
    -1; a successful query's count is returned as-is, and an unset
    DATABASE_URL short-circuits to 0. -/
theorem get_connection_count_spec (e : DiagEnv) :
    (∀ msg, get_connection_count_body e = Except.error msg →
      get_connection_count e = -1)
    ∧ (∀ n, get_connection_count_body e = Except.ok n →
      get_connection_count e = n)
    ∧ (e.database_url = none → get_connection_count e = 0) := by
  refine ⟨?_, ?_, ?_⟩
  · intro msg h
    unfold get_connection_count
    rw [h]
  · intro n h
    unfold get_connection_count
    rw [h]
  · intro h
    unfold get_connection_count get_connection_count_body
    rw [h]

/-- C9 witness: a failing diagnostic query yields the sentinel -1. -/
theorem get_connection_count_spec_witness :
    get_connection_count diagFail = -1 :=
  (get_connection_count_spec diagFail).1 "boom" (by rfl)

/-- C10: stop_periodic_cleanup never raises; called when the reclaimer
    was never started it performs no join at all (completing immediately,
    within any bound), and it is safe to call repeatedly: any further
    call again returns normally with the stop event set. -/
theorem stop_periodic_cleanup_spec (s : ManagerState) :
    (∃ r, stop_periodic_cleanup s = Except.ok r)
    ∧ (s.cleanup_thread = none →
      stop_periodic_cleanup s =
        Except.ok ({ s with stop_cleanup := true }, false))
    ∧ (∀ s' j, stop_periodic_cleanup s = Except.ok (s', j) →
      stop_periodic_cleanup s' =
        Except.ok ({ s' with stop_cleanup := true },
          s'.cleanup_thread.isSome)) := by
  refine ⟨?_, ?_, ?_⟩
  · cases hh : s.cleanup_thread with
    | none =>
      exact ⟨({ s with stop_cleanup := true }, false),
        by simp [stop_periodic_cleanup, hh]⟩
    | some t =>
      exact ⟨({ s with stop_cleanup := true }, true),
        by simp [stop_periodic_cleanup, hh]⟩
  · intro h
    simp [stop_periodic_cleanup, h]
  · intro s' j h
    cases hh : s.cleanup_thread with
    | none =>
      simp only [stop_periodic_cleanup, hh] at h
      cases h
      simp [stop_periodic_cleanup, hh]
    | some t =>
      simp only [stop_periodic_cleanup, hh] at h
      cases h
      simp [stop_periodic_cleanup, hh]

/-- C10 witness: stopping a never-started reclaimer returns normally with
    no join performed, and the state records only the stop event. -/
theorem stop_periodic_cleanup_spec_witness :
    stop_periodic_cleanup st0 =
      Except.ok ({ st0 with stop_cleanup := true }, false) :=
  (stop_periodic_cleanup_spec st0).2.1 (by decide)

end OwnMem0
